import Mathlib

/-!
Shallow embedding of the state-management core of the Colorful Todo app
(`src/agents/generated_project/script.js`): the `Todo` data model, the CRUD
operations on the in-memory `todos` collection, the persistence round trip
(`saveTodos` / `loadTodos`), the filter derivation used by `renderTodos`,
the inline-edit commit path, and the form submit handler.

JavaScript's mutable module state is embedded by explicit state passing:
each operation takes the current collection (and, where the code reads the
environment, the generated UUID and the current `Date.now()` timestamp) and
returns the new collection.  `String.prototype.trim` is modelled by the
executable `jsTrim` below (drop whitespace from both ends of the character
sequence).
-/

/-- Model of `String.prototype.trim`: removes whitespace characters from
both ends of the string.  Defined structurally over the character list so
that it evaluates inside the kernel. -/
def jsTrim (s : String) : String :=
  String.mk (((s.data.dropWhile Char.isWhitespace).reverse.dropWhile Char.isWhitespace).reverse)

/-- The `Todo` class (script.js lines 15-47): one task record with the five
fields the constructor stores. -/
structure Todo where
  id : String
  title : String
  description : String
  completed : Bool
  createdAt : Nat
deriving DecidableEq, Repr

/-- A stored/parsed plain object as consumed by `Todo.fromObject`
(script.js lines 37-46): `id` and `title` are read as stored, while
`description`, `completed` and `createdAt` may be absent (JS `undefined`),
in which case the `??` defaults apply. -/
structure StoredObj where
  id : String
  title : String
  description : Option String
  completed : Option Bool
  createdAt : Option Nat
deriving DecidableEq, Repr

/-- `Todo.fromObject(obj)` (script.js lines 37-46): builds a `Todo` from a
plain object, defaulting a missing `description` to `''`, a missing
`completed` to `false`, and a missing `createdAt` to `Date.now()` (passed
here as `now`). -/
def Todo.fromObject (obj : StoredObj) (now : Nat) : Todo :=
  { id := obj.id
    title := obj.title
    description := obj.description.getD ""
    completed := obj.completed.getD false
    createdAt := obj.createdAt.getD now }

/-- Serialization of one `Todo` as performed by `JSON.stringify` inside
`saveTodos` (script.js lines 75-81): an object holding exactly the five
own fields of the record. -/
def Todo.toStored (t : Todo) : StoredObj :=
  { id := t.id
    title := t.title
    description := some t.description
    completed := some t.completed
    createdAt := some t.createdAt }

/-- The state of the `colorfulTodo` localStorage key as observed by
`loadTodos` (script.js lines 83-102): the key may be missing
(`localStorage.getItem` returns `null`), its content may fail `JSON.parse`,
it may parse to a non-array value (on which `.map` throws `TypeError`,
caught by the same `try`), or it may parse to an array of objects. -/
inductive Raw
  | missing
  | unparsable
  | nonArray
  | arr (l : List StoredObj)
deriving DecidableEq, Repr

/-- `saveTodos()` (script.js lines 75-81): writes
`JSON.stringify(todos)` — an array with one object of five fields per
task — under the `colorfulTodo` key. -/
def saveTodos (ts : List Todo) : Raw :=
  Raw.arr (ts.map Todo.toStored)

/-- `loadTodos()` (script.js lines 91-100, the todo part): if the key is
missing (`raw` falsy) the collection is left as it was; if `JSON.parse`
throws, or the parsed value has no `.map` (non-array), the `catch` resets
the collection to `[]`; otherwise every element is mapped through
`Todo.fromObject`.  The function is total: no path raises. -/
def loadTodos (raw : Raw) (cur : List Todo) (now : Nat) : List Todo :=
  match raw with
  | Raw.missing => cur
  | Raw.unparsable => []
  | Raw.nonArray => []
  | Raw.arr l => l.map (fun obj => Todo.fromObject obj now)

/-- The `updates` argument of `updateTodo` (script.js lines 127-138):
each field is applied only when present with the right runtime type
(`typeof updates.title === 'string'`, etc.). -/
structure Updates where
  title : Option String
  description : Option String
  completed : Option Bool
deriving DecidableEq, Repr

/-- The field merge inside `updateTodo` (script.js lines 131-134): string
fields are trimmed before storing; `completed` is stored as given; `id`
and `createdAt` are never touched. -/
def applyUpdates (u : Updates) (t : Todo) : Todo :=
  { t with
    title := match u.title with | some s => jsTrim s | none => t.title
    description := match u.description with | some s => jsTrim s | none => t.description
    completed := match u.completed with | some b => b | none => t.completed }

/-- `addTodo(title, description)` (script.js lines 114-125, collection
part): constructs a new `Todo` with a fresh UUID (`uid`), the trimmed
title and description, `completed = false` and `createdAt = now`, and
pushes it at the end of the collection.  No validation is performed. -/
def addTodo (ts : List Todo) (title description uid : String) (now : Nat) : List Todo :=
  ts ++ [{ id := uid, title := jsTrim title, description := jsTrim description,
           completed := false, createdAt := now }]

/-- `updateTodo(id, updates)` (script.js lines 127-138): finds the first
task with the given id (`findIndex`) and mutates it in place via the
field merge; a missing id is a silent no-op. -/
def updateTodo (ts : List Todo) (id : String) (u : Updates) : List Todo :=
  match ts with
  | [] => []
  | t :: rest =>
      if t.id = id then applyUpdates u t :: rest
      else t :: updateTodo rest id u

/-- `deleteTodo(id)` (script.js lines 140-156): both branches update the
state the same way, `todos = todos.filter(t => t.id !== id)`. -/
def deleteTodo (ts : List Todo) (id : String) : List Todo :=
  ts.filter (fun t => t.id != id)

/-- `toggleComplete(id)` (script.js lines 158-164): finds the first task
with the given id (`find`) and flips its `completed` flag in place; a
missing id is a silent no-op. -/
def toggleComplete (ts : List Todo) (id : String) : List Todo :=
  match ts with
  | [] => []
  | t :: rest =>
      if t.id = id then { t with completed := !t.completed } :: rest
      else t :: toggleComplete rest id

/-- The view filter (`currentFilter`, script.js line 55): one of the three
enumerated values ever assigned by `attachFilterHandlers`.  Named
`ViewFilter` because `Filter` is taken by the ambient library. -/
inductive ViewFilter
  | all
  | active
  | completed
deriving DecidableEq, Repr

/-- The filter derivation inside `renderTodos` (script.js lines 220-224):
`active` keeps `!todo.completed`, `completed` keeps `todo.completed`,
`all` keeps everything. -/
def visible (f : ViewFilter) (ts : List Todo) : List Todo :=
  ts.filter (fun todo =>
    match f with
    | ViewFilter.active => !todo.completed
    | ViewFilter.completed => todo.completed
    | ViewFilter.all => true)

/-- The `commit` closure of `enterEditMode` (script.js lines 290-300,
collection part): trims both edited fields; a non-empty trimmed title goes
to `updateTodo` with the trimmed values, an empty one goes to
`deleteTodo`. -/
def commit (todo : Todo) (titleVal descVal : String) (ts : List Todo) : List Todo :=
  let newTitle := jsTrim titleVal
  let newDesc := jsTrim descVal
  if newTitle ≠ "" then
    updateTodo ts todo.id { title := some newTitle, description := some newDesc, completed := none }
  else
    deleteTodo ts todo.id

/-- The form submit handler (script.js lines 363-374, collection part):
trims the two inputs, silently returns when the trimmed title is empty
(`if (!title) return`), otherwise calls `addTodo`. -/
def formSubmit (titleVal descVal uid : String) (now : Nat) (ts : List Todo) : List Todo :=
  let title := jsTrim titleVal
  let desc := jsTrim descVal
  if title = "" then ts else addTodo ts title desc uid now

/-- One TaskStore operation, with the environment inputs (fresh UUID,
current timestamp) the code reads made explicit. -/
inductive Op
  | add (uid title description : String) (now : Nat)
  | update (id : String) (u : Updates)
  | toggle (id : String)
  | delete (id : String)
deriving DecidableEq, Repr

/-- Applying one operation to the collection. -/
def applyOp (ts : List Todo) : Op → List Todo
  | Op.add uid title description now => addTodo ts title description uid now
  | Op.update id u => updateTodo ts id u
  | Op.toggle id => toggleComplete ts id
  | Op.delete id => deleteTodo ts id

/-- Running a sequence of operations in dispatch order. -/
def runOps (init : List Todo) : List Op → List Todo
  | [] => init
  | op :: rest => runOps (applyOp init op) rest

/-- Application state visible to the renderer: the collection, the current
filter, and the sequence of tasks for which a list element is currently in
the displayed `#todo-list` (one element per rendered task, in DOM order). -/
structure AppState where
  todos : List Todo
  currentFilter : ViewFilter
  displayed : List Todo
deriving DecidableEq, Repr

/-- `renderTodos()` (script.js lines 215-229, list part): clears the list
and rebuilds one element per task passing the current filter, in order. -/
def renderTodosApp (s : AppState) : AppState :=
  { s with displayed := visible s.currentFilter s.todos }

/-- `addTodo` at the application level (script.js lines 114-125): pushes
the new task and unconditionally appends its element to the displayed
list (`listEl.appendChild(el)`), with no check against `currentFilter`. -/
def addTodoApp (s : AppState) (title description uid : String) (now : Nat) : AppState :=
  let t : Todo := { id := uid, title := jsTrim title, description := jsTrim description,
                    completed := false, createdAt := now }
  { s with todos := s.todos ++ [t], displayed := s.displayed ++ [t] }

/-- C4: the filter derivation used by `renderTodos` is a pure function of
the collection that never reorders it: under `all` it is the identity,
under `active` (resp. `completed`) it is an order-preserving subsequence
containing exactly the tasks with `completed = false` (resp. `true`). -/
theorem visible_filter_spec (ts : List Todo) :
    visible ViewFilter.all ts = ts ∧
    List.Sublist (visible ViewFilter.active ts) ts ∧
    List.Sublist (visible ViewFilter.completed ts) ts ∧
    (∀ t, t ∈ visible ViewFilter.active ts ↔ t ∈ ts ∧ t.completed = false) ∧
    (∀ t, t ∈ visible ViewFilter.completed ts ↔ t ∈ ts ∧ t.completed = true) := by
  refine ⟨?_, ?_, ?_, ?_, ?_⟩
  · simp [visible]
  · exact List.filter_sublist ts
  · exact List.filter_sublist ts
  · intro t
    simp [visible, List.mem_filter]
  · intro t
    simp [visible, List.mem_filter]

/-- C6: `loadTodos` never raises (it is a total function): a missing key
leaves the collection as it was (in particular empty stays empty),
unparsable or non-array content resets it to the empty collection, and a
well-formed array replaces the whole in-memory collection with its
deserialization. -/
theorem loadTodos_never_raises (cur : List Todo) (now : Nat) (l : List StoredObj) :
    loadTodos Raw.missing cur now = cur ∧
    loadTodos Raw.missing [] now = [] ∧
    loadTodos Raw.unparsable cur now = [] ∧
    loadTodos Raw.nonArray cur now = [] ∧
    loadTodos (Raw.arr l) cur now = l.map (fun obj => Todo.fromObject obj now) :=
  ⟨rfl, rfl, rfl, rfl, rfl⟩

/-- C7: serializing the collection with `saveTodos` and reloading it with
`loadTodos` yields an identical ordered sequence of task records,
field-for-field (record equality in Lean is field-for-field equality). -/
theorem save_load_roundtrip (ts cur : List Todo) (now : Nat) :
    loadTodos (saveTodos ts) cur now = ts := by
  simp only [loadTodos, saveTodos, List.map_map]
  exact List.map_id ts

/-- C9: `deleteTodo` on an absent id is a no-op (same size and contents,
and being a total function it raises nothing); on any id it removes
exactly the matching records and keeps every other record. -/
theorem deleteTodo_spec (ts : List Todo) (id : String) :
    ((∀ t ∈ ts, t.id ≠ id) → deleteTodo ts id = ts) ∧
    (∀ t, t ∈ deleteTodo ts id ↔ t ∈ ts ∧ t.id ≠ id) := by
  constructor
  · intro h
    apply List.filter_eq_self.mpr
    intro t ht
    simpa using h t ht
  · intro t
    simp [deleteTodo, List.mem_filter]

/-- C9 witness: deleting the absent id `"b"` from a one-task collection
leaves the collection unchanged. -/
theorem deleteTodo_spec_witness :
    deleteTodo [⟨"a", "T", "", false, 0⟩] "b" = [⟨"a", "T", "", false, 0⟩] :=
  (deleteTodo_spec [⟨"a", "T", "", false, 0⟩] "b").1 (by decide)

/-- C10: `Todo.fromObject` repairs records missing optional fields instead
of failing: `id` and `title` are taken as stored, a missing `description`
becomes `''`, a missing `completed` becomes `false`, and a missing
`createdAt` becomes the current timestamp. -/
theorem fromObject_defaults (obj : StoredObj) (now : Nat) :
    (Todo.fromObject obj now).id = obj.id ∧
    (Todo.fromObject obj now).title = obj.title ∧
    (obj.description = none → (Todo.fromObject obj now).description = "") ∧
    (obj.completed = none → (Todo.fromObject obj now).completed = false) ∧
    (obj.createdAt = none → (Todo.fromObject obj now).createdAt = now) := by
  refine ⟨rfl, rfl, ?_, ?_, ?_⟩ <;> intro h <;> simp [Todo.fromObject, h]

/-- C10 witness: a stored record with only `id` and `title` deserializes
with the three defaulted fields. -/
theorem fromObject_defaults_witness :
    (Todo.fromObject ⟨"i", "t", none, none, none⟩ 7).description = "" ∧
    (Todo.fromObject ⟨"i", "t", none, none, none⟩ 7).completed = false ∧
    (Todo.fromObject ⟨"i", "t", none, none, none⟩ 7).createdAt = 7 :=
  ⟨(fromObject_defaults ⟨"i", "t", none, none, none⟩ 7).2.2.1 rfl,
   (fromObject_defaults ⟨"i", "t", none, none, none⟩ 7).2.2.2.1 rfl,
   (fromObject_defaults ⟨"i", "t", none, none, none⟩ 7).2.2.2.2 rfl⟩

/-- C1 counterexample: `updateTodo` applied to an existing id with a title
that trims to the empty string is NOT redirected to `deleteTodo`: the task
stays in the collection and is stored with an empty title, while a real
`deleteTodo` would have emptied the collection. -/
theorem updateTodo_empty_title_counterexample :
    updateTodo [⟨"a", "Buy milk", "", false, 0⟩] "a"
        { title := some "  ", description := none, completed := none }
      = [⟨"a", "", "", false, 0⟩] ∧
    deleteTodo [⟨"a", "Buy milk", "", false, 0⟩] "a" = [] := by decide

/-- Helper: `updateTodo` never changes the length of the collection. -/
theorem updateTodo_length (ts : List Todo) (id : String) (u : Updates) :
    (updateTodo ts id u).length = ts.length := by
  induction ts with
  | nil => rfl
  | cons t rest ih =>
      by_cases h : t.id = id <;> simp [updateTodo, h, ih]

/-- C1 amended: `updateTodo` with a title update that trims to empty keeps
the task in the collection (same size) and stores it with the empty title;
the redirect-to-delete policy lives only in the edit-commit path, not in
the update operation itself. -/
theorem updateTodo_empty_title_keeps_task (ts : List Todo) (id s : String) (u : Updates)
    (ht : u.title = some s) (hs : jsTrim s = "")
    (hex : ∃ t ∈ ts, t.id = id) :
    (updateTodo ts id u).length = ts.length ∧
    ∃ t' ∈ updateTodo ts id u, t'.id = id ∧ t'.title = "" := by
  refine ⟨updateTodo_length ts id u, ?_⟩
  induction ts with
  | nil => simp at hex
  | cons t rest ih =>
      by_cases h : t.id = id
      · refine ⟨applyUpdates u t, ?_, ?_, ?_⟩
        · simp [updateTodo, h]
        · simpa [applyUpdates] using h
        · simp [applyUpdates, ht, hs]
      · obtain ⟨t₀, hmem, hid⟩ := hex
        rcases List.mem_cons.mp hmem with heq | hrest
        · exact absurd (heq ▸ hid) h
        · obtain ⟨t', hmem', hprops⟩ := ih ⟨t₀, hrest, hid⟩
          exact ⟨t', by simp [updateTodo, h, hmem'], hprops⟩

/-- C1 amended witness: updating the one-task collection with the
whitespace title keeps the collection at size one, with the task stored
under an empty title. -/
theorem updateTodo_empty_title_keeps_task_witness :
    (updateTodo [⟨"a", "Buy milk", "", false, 0⟩] "a"
        { title := some "  ", description := none, completed := none }).length
      = ([⟨"a", "Buy milk", "", false, 0⟩] : List Todo).length ∧
    ∃ t' ∈ updateTodo [⟨"a", "Buy milk", "", false, 0⟩] "a"
        { title := some "  ", description := none, completed := none },
      t'.id = "a" ∧ t'.title = "" :=
  updateTodo_empty_title_keeps_task [⟨"a", "Buy milk", "", false, 0⟩] "a" "  "
    { title := some "  ", description := none, completed := none }
    rfl (by decide) ⟨⟨"a", "Buy milk", "", false, 0⟩, by decide, rfl⟩

/-- C2 counterexample: `addTodo` performs no validation: called with a
whitespace-only title it appends a task stored with an empty title, so the
collection does not stay unchanged and no ValidationError is possible
(the function is total and always appends). -/
theorem addTodo_blank_title_counterexample :
    addTodo [] "   " "d" "u1" 0 = [⟨"u1", "", "d", false, 0⟩] ∧
    (addTodo [] "   " "d" "u1" 0).length ≠ ([] : List Todo).length := by decide

/-- C2 amended: the empty-title guard lives in the form submit handler,
which silently returns without touching the collection (so nothing is
appended or persisted), raising no error of any kind. -/
theorem formSubmit_blank_noop (titleVal descVal uid : String) (now : Nat) (ts : List Todo)
    (h : jsTrim titleVal = "") :
    formSubmit titleVal descVal uid now ts = ts := by
  simp [formSubmit, h]

/-- C2 amended witness: submitting a whitespace-only title against a
one-task collection leaves it unchanged. -/
theorem formSubmit_blank_noop_witness :
    formSubmit "   " "d" "u1" 0 [⟨"a", "T", "", false, 0⟩] = [⟨"a", "T", "", false, 0⟩] :=
  formSubmit_blank_noop "   " "d" "u1" 0 [⟨"a", "T", "", false, 0⟩] (by decide)

/-- C3: the edit-commit closure trims both fields; a non-empty trimmed
title goes to `updateTodo` with the trimmed values, and an empty one goes
to `deleteTodo`, after which no task with the edited id remains in the
collection. -/
theorem commit_trim_update_or_delete (todo : Todo) (titleVal descVal : String) (ts : List Todo) :
    (jsTrim titleVal ≠ "" →
      commit todo titleVal descVal ts =
        updateTodo ts todo.id
          { title := some (jsTrim titleVal), description := some (jsTrim descVal),
            completed := none }) ∧
    (jsTrim titleVal = "" →
      commit todo titleVal descVal ts = deleteTodo ts todo.id ∧
      ∀ t ∈ commit todo titleVal descVal ts, t.id ≠ todo.id) := by
  constructor
  · intro h
    simp [commit, h]
  · intro h
    have hc : commit todo titleVal descVal ts = deleteTodo ts todo.id := by
      simp [commit, h]
    refine ⟨hc, ?_⟩
    intro t ht
    rw [hc] at ht
    simp [deleteTodo, List.mem_filter] at ht
    exact ht.2

/-- C3 witness: committing a trimmed non-empty title performs the update
with trimmed values, and committing a whitespace title deletes the task. -/
theorem commit_trim_update_or_delete_witness :
    commit ⟨"a", "T", "", false, 0⟩ " New " " d " [⟨"a", "T", "", false, 0⟩] =
      updateTodo [⟨"a", "T", "", false, 0⟩] "a"
        { title := some "New", description := some "d", completed := none } ∧
    commit ⟨"a", "T", "", false, 0⟩ "  " "d" [⟨"a", "T", "", false, 0⟩] =
      deleteTodo [⟨"a", "T", "", false, 0⟩] "a" :=
  ⟨(commit_trim_update_or_delete ⟨"a", "T", "", false, 0⟩ " New " " d "
      [⟨"a", "T", "", false, 0⟩]).1 (by decide),
   ((commit_trim_update_or_delete ⟨"a", "T", "", false, 0⟩ "  " "d"
      [⟨"a", "T", "", false, 0⟩]).2 (by decide)).1⟩

/-- C5: evaluating the code at the failing input: starting from a
consistent empty state under filter `completed`, `addTodo` appends the new
(necessarily active) task's element to the displayed list even though the
current filter excludes it, so the displayed list no longer matches the
visible set. -/
theorem addTodo_append_ignores_filter :
    (AppState.mk [] ViewFilter.completed []).displayed
      = visible ViewFilter.completed (AppState.mk [] ViewFilter.completed []).todos ∧
    (addTodoApp (AppState.mk [] ViewFilter.completed []) "Buy milk" "" "u1" 0).displayed
      = [⟨"u1", "Buy milk", "", false, 0⟩] ∧
    visible ViewFilter.completed
        (addTodoApp (AppState.mk [] ViewFilter.completed []) "Buy milk" "" "u1" 0).todos
      = [] ∧
    (addTodoApp (AppState.mk [] ViewFilter.completed []) "Buy milk" "" "u1" 0).displayed
      ≠ visible ViewFilter.completed
          (addTodoApp (AppState.mk [] ViewFilter.completed []) "Buy milk" "" "u1" 0).todos := by
  decide

/-- Helper: every task in the result of `updateTodo` traces back to a task
of the input collection with the same `id` and `createdAt` (the field
merge never touches either field). -/
theorem mem_updateTodo_trace (ts : List Todo) (id : String) (u : Updates) (t' : Todo)
    (h : t' ∈ updateTodo ts id u) :
    ∃ t ∈ ts, t'.id = t.id ∧ t'.createdAt = t.createdAt := by
  induction ts with
  | nil => simp [updateTodo] at h
  | cons t rest ih =>
      by_cases hid : t.id = id
      · simp only [updateTodo, if_pos hid, List.mem_cons] at h
        rcases h with heq | hmem
        · exact ⟨t, List.mem_cons_self t rest, by subst heq; rfl, by subst heq; rfl⟩
        · exact ⟨t', List.mem_cons_of_mem t hmem, rfl, rfl⟩
      · simp only [updateTodo, if_neg hid, List.mem_cons] at h
        rcases h with heq | hmem
        · exact ⟨t, List.mem_cons_self t rest, by rw [heq], by rw [heq]⟩
        · obtain ⟨t₀, hmem₀, h₀⟩ := ih hmem
          exact ⟨t₀, List.mem_cons_of_mem t hmem₀, h₀⟩

/-- Helper: every task in the result of `toggleComplete` traces back to a
task of the input collection with the same `id` and `createdAt`. -/
theorem mem_toggleComplete_trace (ts : List Todo) (id : String) (t' : Todo)
    (h : t' ∈ toggleComplete ts id) :
    ∃ t ∈ ts, t'.id = t.id ∧ t'.createdAt = t.createdAt := by
  induction ts with
  | nil => simp [toggleComplete] at h
  | cons t rest ih =>
      by_cases hid : t.id = id
      · simp only [toggleComplete, if_pos hid, List.mem_cons] at h
        rcases h with heq | hmem
        · exact ⟨t, List.mem_cons_self t rest, by subst heq; rfl, by subst heq; rfl⟩
        · exact ⟨t', List.mem_cons_of_mem t hmem, rfl, rfl⟩
      · simp only [toggleComplete, if_neg hid, List.mem_cons] at h
        rcases h with heq | hmem
        · exact ⟨t, List.mem_cons_self t rest, by rw [heq], by rw [heq]⟩
        · obtain ⟨t₀, hmem₀, h₀⟩ := ih hmem
          exact ⟨t₀, List.mem_cons_of_mem t hmem₀, h₀⟩

/-- Helper: one operation step — every surviving task traces back to the
previous collection with `id` and `createdAt` intact, except the task a
create introduces, which carries exactly the id and timestamp assigned at
creation. -/
theorem mem_applyOp_trace (ts : List Todo) (op : Op) (t' : Todo)
    (h : t' ∈ applyOp ts op) :
    (∃ t ∈ ts, t'.id = t.id ∧ t'.createdAt = t.createdAt) ∨
    (∃ uid title description now, op = Op.add uid title description now ∧
      t'.id = uid ∧ t'.createdAt = now) := by
  cases op with
  | add uid title description now =>
      simp only [applyOp, addTodo, List.mem_append, List.mem_singleton] at h
      rcases h with hmem | heq
      · exact Or.inl ⟨t', hmem, rfl, rfl⟩
      · exact Or.inr ⟨uid, title, description, now, rfl, by subst heq; rfl, by subst heq; rfl⟩
  | update id u => exact Or.inl (mem_updateTodo_trace ts id u t' h)
  | toggle id => exact Or.inl (mem_toggleComplete_trace ts id t' h)
  | delete id =>
      refine Or.inl ⟨t', ?_, rfl, rfl⟩
      simp only [applyOp, deleteTodo, List.mem_filter] at h
      exact h.1

/-- C8: over every sequence of TaskStore operations, every task in the
final collection keeps the `id` and `createdAt` it had at the start or
that its creating `add` assigned: no operation ever rewrites either
field. -/
theorem runOps_preserves_id_createdAt (ops : List Op) (init : List Todo) (t' : Todo)
    (h : t' ∈ runOps init ops) :
    (∃ t ∈ init, t'.id = t.id ∧ t'.createdAt = t.createdAt) ∨
    (∃ op ∈ ops, ∃ uid title description now, op = Op.add uid title description now ∧
      t'.id = uid ∧ t'.createdAt = now) := by
  induction ops generalizing init with
  | nil => exact Or.inl ⟨t', h, rfl, rfl⟩
  | cons op rest ih =>
      rcases ih (applyOp init op) h with ⟨t₁, hmem₁, hid₁, hca₁⟩ | ⟨op₁, hop₁, hrest₁⟩
      · rcases mem_applyOp_trace init op t₁ hmem₁ with
          ⟨t₀, hmem₀, hid₀, hca₀⟩ | ⟨uid, title, description, now, heq, hid₀, hca₀⟩
        · exact Or.inl ⟨t₀, hmem₀, hid₁.trans hid₀, hca₁.trans hca₀⟩
        · exact Or.inr ⟨op, List.mem_cons_self op rest, uid, title, description, now,
            heq, hid₁.trans hid₀, hca₁.trans hca₀⟩
      · exact Or.inr ⟨op₁, List.mem_cons_of_mem op hop₁, hrest₁⟩

/-- C8 witness: after creating a task and toggling it, the surviving task
carries the id and timestamp assigned by its creating operation. -/
theorem runOps_preserves_id_createdAt_witness :
    (∃ t ∈ ([] : List Todo),
      (Todo.mk "u" "T" "" true 5).id = t.id ∧
      (Todo.mk "u" "T" "" true 5).createdAt = t.createdAt) ∨
    (∃ op ∈ [Op.add "u" "T" "" 5, Op.toggle "u"],
      ∃ uid title description now, op = Op.add uid title description now ∧
        (Todo.mk "u" "T" "" true 5).id = uid ∧
        (Todo.mk "u" "T" "" true 5).createdAt = now) :=
  runOps_preserves_id_createdAt [Op.add "u" "T" "" 5, Op.toggle "u"] []
    (Todo.mk "u" "T" "" true 5) (by decide)
